import Mathlib

/-!
Verification of the MT5 trade-algorithm monitor (`mt5_monitor.py`,
`advanced_analytics.py`) against its natural-language specification.

The deal/order tables are embedded as Lean lists of records; prices, volumes,
profits and confidences are exact rationals; timestamps are epoch seconds as
naturals.  Every comparison of a standard deviation `std l < c * m` with
`m ≥ 0` is decided in rational arithmetic as `var l < c^2 * m^2`, which is
equivalent because both sides of the original comparison are nonnegative;
pandas' sample statistics on fewer than two observations yield NaN, whose
comparisons are false, which is modelled by an explicit length guard.
Evidence strings and metric dictionaries are output-only annotations that no
downstream consumer reads; they are not modelled.  The wall-clock timestamp
recorded in a signature is passed in as an explicit parameter.
-/

namespace MT5

/- The core library marks the arithmetic of `Rat` irreducible for the
elaborator; concrete evaluations below need it unfolded. -/
attribute [local semireducible] Rat.add Rat.mul Rat.inv Rat.sub

/-! ## List helpers -/

/-- Insert a rational into a sorted list (ascending). -/
def sortQInsert (x : ℚ) : List ℚ → List ℚ
  | [] => [x]
  | y :: ys => if x ≤ y then x :: y :: ys else y :: sortQInsert x ys

/-- Sort a list of rationals ascending (models `sorted`/`sort_values`). -/
def sortQ (l : List ℚ) : List ℚ := l.foldr sortQInsert []

/-- Arithmetic mean (0 on the empty list, by rational division by zero). -/
def mean (l : List ℚ) : ℚ := l.sum / (l.length : ℚ)

/-- Population variance, as used by `np.std` (ddof = 0). -/
def varPop (l : List ℚ) : ℚ :=
  ((l.map (fun x => (x - mean l) ^ 2)).sum) / (l.length : ℚ)

/-- Sample variance, as used by pandas `.std()` (ddof = 1).
Only consulted under a `2 ≤ length` guard (pandas yields NaN below that). -/
def varSamp (l : List ℚ) : ℚ :=
  ((l.map (fun x => (x - mean l) ^ 2)).sum) / ((l.length : ℚ) - 1)

/-- Median as pandas computes it: middle element, or mean of the two middles. -/
def medianQ (l : List ℚ) : ℚ :=
  if l.length = 0 then 0
  else if l.length % 2 = 1 then (sortQ l).getD (l.length / 2) 0
  else ((sortQ l).getD (l.length / 2 - 1) 0 + (sortQ l).getD (l.length / 2) 0) / 2

/-- First occurrences in order, models `pandas.unique` / iteration order of
`value_counts` keys. -/
def uniqueFirst {α : Type} [DecidableEq α] (l : List α) : List α :=
  l.foldl (fun acc s => if s ∈ acc then acc else acc ++ [s]) []

/-- Number of occurrences of `v` in `l`. -/
def countVal {α : Type} [DecidableEq α] (v : α) (l : List α) : ℕ :=
  l.countP (fun x => decide (x = v))

/-- The largest multiplicity of any value in `l`
(models `value_counts().iloc[0]`, which is tie-insensitive). -/
def maxMultiplicity {α : Type} [DecidableEq α] (l : List α) : ℕ :=
  ((uniqueFirst l).map (fun v => countVal v l)).foldl max 0

/-- Consecutive differences (models `np.diff`). -/
def consecDiffs : List ℚ → List ℚ
  | a :: b :: rest => (b - a) :: consecDiffs (b :: rest)
  | _ => []

/-- Adjacent pairs of a list. -/
def adjPairs {α : Type} : List α → List (α × α)
  | a :: b :: rest => (a, b) :: adjPairs (b :: rest)
  | _ => []

def maxNat (l : List ℕ) : ℕ := l.foldl max 0

def minNat : List ℕ → ℕ
  | [] => 0
  | x :: xs => xs.foldl min x

/-! ## Data model -/

/-- One row of the deals table (the columns the analysis reads). -/
structure Deal where
  time : ℕ
  symbol : String
  type : ℕ
  price : ℚ
  volume : ℚ
  profit : ℚ
  deriving DecidableEq

/-- One row of the orders table (the columns the analysis reads). -/
structure Order where
  symbol : String
  type : ℕ
  price_open : ℚ
  sl : ℚ
  tp : ℚ
  deriving DecidableEq

/-- A detected trade pattern (name, confidence, description).  The evidence
list and the metrics mapping are write-only output, not modelled. -/
structure TradePattern where
  pattern_name : String
  confidence : ℚ
  description : String
  deriving DecidableEq

/-- Profit factor: a rational, or the `float('inf')` sentinel. -/
inductive PFValue where
  | finite (q : ℚ)
  | posInf
  deriving DecidableEq

/-- Python `pf > q` where `pf` may be `float('inf')`. -/
def PFValue.gtQ : PFValue → ℚ → Bool
  | .posInf, _ => true
  | .finite x, q => decide (q < x)

/-- Python `pf < q` where `pf` may be `float('inf')`. -/
def PFValue.ltQ : PFValue → ℚ → Bool
  | .posInf, _ => false
  | .finite x, q => decide (x < q)

/-- The fields of the statistics dictionary consumed downstream (the
time-of-day / weekday modes and inter-trade-gap summaries are written to the
report only and are not modelled). -/
structure TradeStats where
  total_trades : ℕ
  winning_trades : ℕ
  losing_trades : ℕ
  break_even_trades : ℕ
  total_profit : ℚ
  average_profit : ℚ
  max_profit : ℚ
  max_loss : ℚ
  average_volume : ℚ
  total_volume : ℚ
  win_rate : ℚ
  profit_factor : PFValue
  deriving DecidableEq

structure Characteristics where
  statistics : Option TradeStats
  pattern_count : ℕ
  analysis_period_days : ℕ
  deriving DecidableEq

structure AlgorithmSignature where
  likely_algorithm : String
  confidence : ℚ
  patterns : List TradePattern
  characteristics : Characteristics
  timestamp : String
  deriving DecidableEq

/-- Stable sort of deals by time (models `sort_values('time')`). -/
def insertByTime (d : Deal) : List Deal → List Deal
  | [] => [d]
  | e :: es => if d.time ≤ e.time then d :: e :: es else e :: insertByTime d es

def sortByTime (l : List Deal) : List Deal := l.foldr insertByTime []

/-! ## Trade statistics (`calculate_trade_statistics`) -/

/-- Deals restricted to actual fills: `type.isin([0, 1])`. -/
def tradeDealsOf (deals : List Deal) : List Deal :=
  deals.filter (fun d => d.type == 0 || d.type == 1)

def maxQ : List ℚ → ℚ
  | [] => 0
  | x :: xs => xs.foldl max x

def minQ : List ℚ → ℚ
  | [] => 0
  | x :: xs => xs.foldl min x

def grossProfit (deals : List Deal) : ℚ :=
  (((tradeDealsOf deals).map Deal.profit).filter (fun p => decide (0 < p))).sum

def grossLoss (deals : List Deal) : ℚ :=
  |(((tradeDealsOf deals).map Deal.profit).filter (fun p => decide (p < 0))).sum|

def profitFactorOf (deals : List Deal) : PFValue :=
  if 0 < grossLoss deals then .finite (grossProfit deals / grossLoss deals)
  else if 0 < grossProfit deals then .posInf
  else .finite 0

def calculate_trade_statistics (deals : List Deal) : Option TradeStats :=
  if deals = [] then none
  else if tradeDealsOf deals = [] then none
  else
    some ⟨(tradeDealsOf deals).length,
          ((tradeDealsOf deals).map Deal.profit).countP (fun p => decide (0 < p)),
          ((tradeDealsOf deals).map Deal.profit).countP (fun p => decide (p < 0)),
          ((tradeDealsOf deals).map Deal.profit).countP (fun p => decide (p = 0)),
          ((tradeDealsOf deals).map Deal.profit).sum,
          mean ((tradeDealsOf deals).map Deal.profit),
          maxQ ((tradeDealsOf deals).map Deal.profit),
          minQ ((tradeDealsOf deals).map Deal.profit),
          mean ((tradeDealsOf deals).map Deal.volume),
          ((tradeDealsOf deals).map Deal.volume).sum,
          ((((tradeDealsOf deals).map Deal.profit).countP
              (fun p => decide (0 < p)) : ℚ) / ((tradeDealsOf deals).length : ℚ)) * 100,
          profitFactorOf deals⟩

/-! ## Position sizing detector (`detect_position_sizing_pattern`) -/

/-- For each consecutive pair of deals: 1 if the prior deal lost and the next
volume is at least 1.8 times the prior volume. -/
def martingaleSteps : List ℚ → List ℚ → ℕ
  | v1 :: v2 :: vs, p1 :: ps =>
      (if p1 < 0 ∧ v1 * (9 / 5) ≤ v2 then 1 else 0) + martingaleSteps (v2 :: vs) ps
  | _, _ => 0

/-- `cv < 0.2` where `cv = std/mean if mean > 0 else 0`; decided as
`var < (1/5)^2 * mean^2` when `mean > 0` (equivalent, both sides of
`std < mean/5` then nonnegative), and true when `mean ≤ 0` (cv = 0). -/
def cvBelowFifth (volumes : List ℚ) : Bool :=
  if 0 < mean volumes then decide (varPop volumes < (1 / 25) * (mean volumes) ^ 2)
  else true

def detect_position_sizing_pattern (deals : List Deal) : Option TradePattern :=
  if deals = [] then none
  else if (uniqueFirst (deals.map Deal.volume)).length = 1 then
    some ⟨"Fixed Lot Size", 19/20, "Position sizing strategy analysis"⟩
  else if 3 < (deals.map Deal.volume).length then
    if ((deals.map Deal.volume).length : ℚ) * (3/10) <
        (martingaleSteps (deals.map Deal.volume) (deals.map Deal.profit) : ℚ) then
      some ⟨"Martingale/Anti-Martingale", 4/5, "Position sizing strategy analysis"⟩
    else
      some ⟨"Unknown", 0, "Position sizing strategy analysis"⟩
  else if cvBelowFifth (deals.map Deal.volume) then
    some ⟨"Consistent Proportional Sizing", 7/10, "Position sizing strategy analysis"⟩
  else
    some ⟨"Dynamic/Variable Sizing", 3/5, "Position sizing strategy analysis"⟩

/-! ## Time-based detector (`detect_time_based_patterns`) -/

def hourOf (d : Deal) : ℕ := d.time / 3600 % 24

/-- Share (percent) of deals in the single busiest hour. -/
def topHourPct (deals : List Deal) : ℚ :=
  ((maxMultiplicity (deals.map hourOf) : ℚ) / (deals.length : ℚ)) * 100

def timeBasePattern (deals : List Deal) : String × ℚ :=
  if 50 < topHourPct deals then ("Time-Scheduled Trading", 17/20)
  else if 30 < topHourPct deals then ("Preferred Time Window Trading", 7/10)
  else ("Continuous/24-Hour Trading", 3/5)

/-- Inter-deal gaps in minutes over the time-sorted deals. -/
def tradeGapsMinutes (deals : List Deal) : List ℚ :=
  (consecDiffs ((sortByTime deals).map (fun d => (d.time : ℚ)))).map (fun g => g / 60)

/-- `std(gaps) < 0.3 * median and median < 60`, with pandas sample std;
NaN below two gaps (comparison false), hence the length guard. -/
def regularIntervals (deals : List Deal) : Bool :=
  decide (2 ≤ (tradeGapsMinutes deals).length ∧
    varSamp (tradeGapsMinutes deals) < (9/100) * (medianQ (tradeGapsMinutes deals)) ^ 2 ∧
    medianQ (tradeGapsMinutes deals) < 60)

def timeConfOf (deals : List Deal) : ℚ :=
  if regularIntervals deals then max (timeBasePattern deals).2 (4/5)
  else (timeBasePattern deals).2

def detect_time_based_patterns (deals : List Deal) : Option TradePattern :=
  if deals = [] then none
  else some ⟨(timeBasePattern deals).1, timeConfOf deals,
             "Time-based trading pattern analysis"⟩

/-! ## Risk management detector (`detect_risk_management_pattern`) -/

def slUsagePct (orders : List Order) : ℚ :=
  (((orders.filter (fun o => decide (0 < o.sl))).length : ℚ) / (orders.length : ℚ)) * 100

def tpUsagePct (orders : List Order) : ℚ :=
  (((orders.filter (fun o => decide (0 < o.tp))).length : ℚ) / (orders.length : ℚ)) * 100

def riskPatternFromOrders (orders : List Order) : String × ℚ :=
  if 80 < slUsagePct orders ∧ 80 < tpUsagePct orders then
    ("Strict Risk Management (SL + TP)", 9/10)
  else if 80 < slUsagePct orders then ("Conservative (SL Only)", 4/5)
  else if 80 < tpUsagePct orders then ("Profit Target Based", 3/4)
  else ("Flexible/Manual Risk Management", 3/5)

/-- The average-win / average-loss block of the source only appends evidence
and metrics; the returned name and confidence are unaffected by it. -/
def detect_risk_management_pattern (deals : List Deal) (orders : List Order) :
    Option TradePattern :=
  if deals = [] then none
  else if orders = [] then
    some ⟨"Unknown Risk Management", 1/2, "Risk management strategy analysis"⟩
  else
    some ⟨(riskPatternFromOrders orders).1, (riskPatternFromOrders orders).2,
          "Risk management strategy analysis"⟩

/-! ## Trading frequency detector (`detect_trading_frequency_pattern`) -/

def dateOf (d : Deal) : ℕ := d.time / 86400

/-- Per-calendar-day deal counts (`groupby('date').size()`), as rationals. -/
def dayTradeCounts (deals : List Deal) : List ℚ :=
  (uniqueFirst (deals.map dateOf)).map (fun day => (countVal day (deals.map dateOf) : ℚ))

def avgTradesPerDay (deals : List Deal) : ℚ := mean (dayTradeCounts deals)

def freqBasePattern (deals : List Deal) : String × ℚ :=
  if 50 < avgTradesPerDay deals then ("High-Frequency Trading (HFT)", 17/20)
  else if 20 < avgTradesPerDay deals then ("Scalping Strategy", 4/5)
  else if 5 < avgTradesPerDay deals then ("Day Trading Strategy", 3/4)
  else if 1 < avgTradesPerDay deals then ("Swing Trading Strategy", 7/10)
  else ("Position Trading Strategy", 7/10)

/-- `std < avg * 0.3` over the per-day counts (pandas sample std, NaN below
two days); both sides nonnegative, decided by squaring. -/
def consistentDaily (deals : List Deal) : Bool :=
  decide (2 ≤ (dayTradeCounts deals).length ∧
    varSamp (dayTradeCounts deals) < (9/100) * (avgTradesPerDay deals) ^ 2)

def freqConfOf (deals : List Deal) : ℚ :=
  if consistentDaily deals then (freqBasePattern deals).2 + 1/20
  else (freqBasePattern deals).2

def detect_trading_frequency_pattern (deals : List Deal) : Option TradePattern :=
  if deals = [] then none
  else some ⟨(freqBasePattern deals).1, freqConfOf deals, "Trading frequency analysis"⟩

/-! ## Symbol detector (`detect_symbol_pattern`) -/

def topSymbolPct (deals : List Deal) : ℚ :=
  ((maxMultiplicity (deals.map Deal.symbol) : ℚ) / (deals.length : ℚ)) * 100

def detect_symbol_pattern (deals : List Deal) : Option TradePattern :=
  if deals = [] then none
  else if (uniqueFirst (deals.map Deal.symbol)).length = 1 then
    some ⟨"Single Instrument Specialist", 19/20, "Instrument selection analysis"⟩
  else if 70 < topSymbolPct deals then
    some ⟨"Focused Instrument Strategy", 17/20, "Instrument selection analysis"⟩
  else if (uniqueFirst (deals.map Deal.symbol)).length ≤ 5 then
    some ⟨"Multi-Instrument Strategy", 3/4, "Instrument selection analysis"⟩
  else
    some ⟨"Diversified Portfolio Strategy", 7/10, "Instrument selection analysis"⟩

/-! ## Signature resolver (`_determine_algorithm_type`, `identify_algorithm_type`) -/

def patternNamesOf (patterns : List TradePattern) : List String :=
  patterns.map TradePattern.pattern_name

/-- Character-list startsWith test used by the substring search below. -/
def charsStartWith : List Char → List Char → Bool
  | [], _ => true
  | _ :: _, [] => false
  | a :: as, b :: bs => a == b && charsStartWith as bs

/-- Substring occurrence of `pat` in a character list. -/
def charsContain (pat : List Char) : List Char → Bool
  | [] => charsStartWith pat []
  | c :: cs => charsStartWith pat (c :: cs) || charsContain pat cs

def strContainsSub (s pat : String) : Bool := charsContain pat.data s.data

/-- Python `str(pattern_names)` of a list of strings. -/
def pyListRepr (names : List String) : String :=
  "[" ++ String.intercalate ", " (names.map (fun n => "'" ++ n ++ "'")) ++ "]"

def winRateOf : Option TradeStats → ℚ
  | none => 0
  | some s => s.win_rate

def pfOf : Option TradeStats → PFValue
  | none => .finite 0
  | some s => s.profit_factor

def determine_algorithm_type (patterns : List TradePattern)
    (stats : Option TradeStats) : String :=
  if "High-Frequency Trading (HFT)" ∈ patternNamesOf patterns then
    "High-Frequency Trading Bot"
  else if "Scalping Strategy" ∈ patternNamesOf patterns then
    (if "Time-Scheduled Trading" ∈ patternNamesOf patterns then "Scheduled Scalping EA"
     else "Scalping Bot/EA")
  else if "Martingale/Anti-Martingale" ∈ patternNamesOf patterns then
    (if strContainsSub (pyListRepr (patternNamesOf patterns)) "Grid" then "Grid Martingale EA"
     else "Martingale-Based EA")
  else if "Day Trading Strategy" ∈ patternNamesOf patterns then
    (if "Strict Risk Management (SL + TP)" ∈ patternNamesOf patterns then
       "Professional Day Trading EA"
     else "Day Trading Bot")
  else if "Swing Trading Strategy" ∈ patternNamesOf patterns then "Swing Trading Algorithm"
  else if "Position Trading Strategy" ∈ patternNamesOf patterns then
    "Long-Term Position Trading EA"
  else if winRateOf stats < 40 ∧ (pfOf stats).gtQ (3/2) then
    "High Risk-Reward Trend Following EA"
  else if 70 < winRateOf stats ∧ (pfOf stats).ltQ 2 then
    "High Win-Rate Mean Reversion EA"
  else "Custom/Hybrid Trading Algorithm"

/-- The five detector results, `None`s filtered out, in source order. -/
def firedPatterns (deals : List Deal) (orders : List Order) : List TradePattern :=
  ([detect_position_sizing_pattern deals,
    detect_time_based_patterns deals,
    detect_risk_management_pattern deals orders,
    detect_trading_frequency_pattern deals,
    detect_symbol_pattern deals]).filterMap id

def overallConfidence (deals : List Deal) (orders : List Order) : ℚ :=
  if firedPatterns deals orders ≠ [] then
    ((firedPatterns deals orders).map TradePattern.confidence).sum /
      ((firedPatterns deals orders).length : ℚ)
  else 0

/-- `(time.max() - time.min()).days` for a nonempty table, else 0. -/
def analysisPeriodDays (deals : List Deal) : ℕ :=
  if deals = [] then 0
  else (maxNat (deals.map Deal.time) - minNat (deals.map Deal.time)) / 86400

/-- Top-level analysis.  `datetime.now().isoformat()` enters only the
`timestamp` field and is passed in as the explicit parameter `now`. -/
def identify_algorithm_type (deals : List Deal) (orders : List Order)
    (now : String) : AlgorithmSignature :=
  ⟨determine_algorithm_type (firedPatterns deals orders) (calculate_trade_statistics deals),
   overallConfidence deals orders,
   firedPatterns deals orders,
   ⟨calculate_trade_statistics deals, (firedPatterns deals orders).length,
    analysisPeriodDays deals⟩,
   now⟩

/-! ## Advanced analytics detectors (`advanced_analytics.py`) -/

structure GridResult where
  is_grid : Bool
  confidence : ℚ
  grid_spacing : Option ℚ
  deriving DecidableEq

/-- The per-symbol qualification test of `detect_grid_trading`:
at least 5 orders on the symbol, at least 3 of them pending limits
(types 2/3), and `std(diffs) < 0.3 * mean(diffs)` over the consecutive
differences of the sorted prices (squared form; sorted differences are
nonnegative, so both sides of the original comparison are nonnegative). -/
def gridQualifies (orders : List Order) (sym : String) : Bool :=
  if (orders.filter (fun o => o.symbol == sym)).length < 5 then false
  else if 3 ≤ ((orders.filter (fun o => o.symbol == sym)).filter
                 (fun o => o.type == 2 || o.type == 3)).length then
    (if 0 < (consecDiffs (sortQ (((orders.filter (fun o => o.symbol == sym)).filter
            (fun o => o.type == 2 || o.type == 3)).map Order.price_open))).length then
      decide (varPop (consecDiffs (sortQ (((orders.filter (fun o => o.symbol == sym)).filter
                (fun o => o.type == 2 || o.type == 3)).map Order.price_open))) <
        (9/100) * (mean (consecDiffs (sortQ (((orders.filter (fun o => o.symbol == sym)).filter
                (fun o => o.type == 2 || o.type == 3)).map Order.price_open)))) ^ 2)
     else false)
  else false

/-- Mean spacing recorded for a qualifying symbol. -/
def gridSpacingOf (orders : List Order) (sym : String) : ℚ :=
  mean (consecDiffs (sortQ (((orders.filter (fun o => o.symbol == sym)).filter
    (fun o => o.type == 2 || o.type == 3)).map Order.price_open)))

/-- One iteration of the symbol loop: a qualifying symbol overwrites the
result fields, any other symbol leaves the accumulator unchanged. -/
def gridStep (orders : List Order) (r : GridResult) (sym : String) : GridResult :=
  if gridQualifies orders sym then ⟨true, 4/5, some (gridSpacingOf orders sym)⟩ else r

def detect_grid_trading (deals : List Deal) (orders : List Order) : GridResult :=
  if deals = [] ∨ orders = [] then ⟨false, 0, none⟩
  else (uniqueFirst (deals.map Deal.symbol)).foldl (gridStep orders) ⟨false, 0, none⟩

structure NewsResult where
  is_news_trading : Bool
  confidence : ℚ
  clusters_detected : ℕ
  cluster_share : ℚ
  deriving DecidableEq

/-- The `time.diff()` series in minutes: a leading NaN then the gaps. -/
def newsTimeDiffs (deals : List Deal) : List (Option ℚ) :=
  none :: (tradeGapsMinutes deals).map some

def isShortGap : Option ℚ → Bool
  | some v => decide (v < 5)
  | none => false

/-- Position `i` opens a cluster: a known gap over 60 minutes followed by at
least 2 gaps under 5 minutes among the next 3 entries. -/
def newsClusterAt (td : List (Option ℚ)) (i : ℕ) : Bool :=
  match td.getD i none with
  | some g => decide (60 < g) && decide (2 ≤ ((td.drop (i + 1)).take 3).countP isShortGap)
  | none => false

/-- The `while i < len(time_diffs) - 2` scan. -/
def newsClusters (deals : List Deal) : ℕ :=
  (List.range ((newsTimeDiffs deals).length - 2)).countP
    (fun i => newsClusterAt (newsTimeDiffs deals) i)

def detect_news_trading (deals : List Deal) : NewsResult :=
  if deals = [] then ⟨false, 0, 0, 0⟩
  else
    ⟨decide (1/10 < (newsClusters deals : ℚ) / (deals.length : ℚ)),
     min (((newsClusters deals : ℚ) / (deals.length : ℚ)) * 5) (9/10),
     newsClusters deals,
     (newsClusters deals : ℚ) / (deals.length : ℚ)⟩

structure CorrelationResult where
  is_correlation_trading : Bool
  confidence : ℚ
  simultaneous_share : ℚ
  simultaneous_count : ℕ
  deriving DecidableEq

def minuteOf (d : Deal) : ℕ := d.time / 60

def corrTotalGroups (deals : List Deal) : ℕ := (uniqueFirst (deals.map minuteOf)).length

def corrMultiGroups (deals : List Deal) : ℕ :=
  (uniqueFirst (deals.map minuteOf)).countP (fun m =>
    decide (1 < (uniqueFirst ((deals.filter (fun d => minuteOf d == m)).map Deal.symbol)).length))

def corrShare (deals : List Deal) : ℚ :=
  if 0 < corrTotalGroups deals then (corrMultiGroups deals : ℚ) / (corrTotalGroups deals : ℚ)
  else 0

def detect_correlation_trading (deals : List Deal) : CorrelationResult :=
  if deals = [] then ⟨false, 0, 0, 0⟩
  else ⟨decide (3/10 < corrShare deals), min (corrShare deals * 2) (17/20),
        corrShare deals, corrMultiGroups deals⟩

structure HedgingResult where
  is_hedging : Bool
  confidence : ℚ
  hedging_share : ℚ
  hedging_instances : ℕ
  deriving DecidableEq

/-- The time-sorted deals of one symbol. -/
def symDeals (deals : List Deal) (sym : String) : List Deal :=
  (sortByTime deals).filter (fun d => d.symbol == sym)

/-- Adjacent pairs within 10 minutes and of opposite type. -/
def hedgePairs (l : List Deal) : ℕ :=
  (adjPairs l).countP (fun pr =>
    decide ((((pr.2.time - pr.1.time : ℕ) : ℚ) / 60) < 10) && !(pr.1.type == pr.2.type))

def hedgeOpportunities (deals : List Deal) : ℕ :=
  (uniqueFirst ((sortByTime deals).map Deal.symbol)).foldl
    (fun acc sym => if (symDeals deals sym).length < 2 then acc
                    else acc + ((symDeals deals sym).length - 1)) 0

def hedgeInstances (deals : List Deal) : ℕ :=
  (uniqueFirst ((sortByTime deals).map Deal.symbol)).foldl
    (fun acc sym => if (symDeals deals sym).length < 2 then acc
                    else acc + hedgePairs (symDeals deals sym)) 0

def hedgingShareOf (deals : List Deal) : ℚ :=
  if 0 < hedgeOpportunities deals then
    (hedgeInstances deals : ℚ) / (hedgeOpportunities deals : ℚ)
  else 0

def detect_hedging_strategy (deals : List Deal) : HedgingResult :=
  if deals = [] then ⟨false, 0, 0, 0⟩
  else ⟨decide (3/10 < hedgingShareOf deals), min (hedgingShareOf deals * 2) (17/20),
        hedgingShareOf deals, hedgeInstances deals⟩

structure ScalingResult where
  is_scaling : Bool
  confidence : ℚ
  scaling_instances : ℕ
  deriving DecidableEq

/-- The inner loop of `detect_scaling_in_out`, with its running
`consecutive_same_type` counter and `prev_type`. -/
def scalingGo : List ℕ → Option ℕ → ℕ → ℕ → ℕ
  | [], _, _, acc => acc
  | t :: ts, prev, consec, acc =>
      if some t = prev then
        (if 2 ≤ consec + 1 then scalingGo ts (some t) (consec + 1) (acc + 1)
         else scalingGo ts (some t) (consec + 1) acc)
      else scalingGo ts (some t) 1 acc

def scalingLoop (types : List ℕ) : ℕ := scalingGo types none 1 0

def scalingInstancesOf (deals : List Deal) : ℕ :=
  (uniqueFirst ((sortByTime deals).map Deal.symbol)).foldl
    (fun acc sym => if (symDeals deals sym).length < 3 then acc
                    else acc + scalingLoop ((symDeals deals sym).map Deal.type)) 0

def detect_scaling_in_out (deals : List Deal) : ScalingResult :=
  if deals = [] then ⟨false, 0, 0⟩
  else ⟨decide (0 < scalingInstancesOf deals),
        min ((scalingInstancesOf deals : ℚ) * (1/5)) (17/20),
        scalingInstancesOf deals⟩

/-! ## Claim-side definitions -/

def runLengthsGo : List ℕ → ℕ → ℕ → List ℕ
  | [], _, k => [k]
  | t :: ts, cur, k => if t = cur then runLengthsGo ts cur (k + 1) else k :: runLengthsGo ts t 1

/-- Lengths of the maximal runs of equal consecutive entries. -/
def runLengths : List ℕ → List ℕ
  | [] => []
  | t :: ts => runLengthsGo ts t 1

/-- Modelled from the claim wording, for comparison with the code: the number
of maximal runs of at least 2 consecutive equal deal types. -/
def specScalingRuns (types : List ℕ) : ℕ := (runLengths types).countP (fun k => decide (2 ≤ k))

/-- Count of adjacent equal pairs; the closed form of `scalingLoop`. -/
def adjSameCount : List ℕ → ℕ
  | a :: b :: rest => (if a = b then 1 else 0) + adjSameCount (b :: rest)
  | _ => 0

/-- The scaling counter in closed form: adjacent same-type pairs summed over
symbols with at least 3 deals. -/
def adjSamePairsTotal (deals : List Deal) : ℕ :=
  (uniqueFirst ((sortByTime deals).map Deal.symbol)).foldl
    (fun acc sym => if (symDeals deals sym).length < 3 then acc
                    else acc + adjSameCount ((symDeals deals sym).map Deal.type)) 0

/-! ## Helper lemmas -/

lemma qsum_nonneg (l : List ℚ) (h : ∀ x ∈ l, 0 ≤ x) : 0 ≤ l.sum := by
  induction l with
  | nil => simp
  | cons a t ih =>
    simp only [List.sum_cons]
    have ha := h a (List.mem_cons_self a t)
    have ht := ih (fun x hx => h x (List.mem_cons_of_mem a hx))
    linarith

lemma qsum_le_length (l : List ℚ) (h : ∀ x ∈ l, x ≤ 1) : l.sum ≤ (l.length : ℚ) := by
  induction l with
  | nil => simp
  | cons a t ih =>
    simp only [List.sum_cons, List.length_cons]
    have ha := h a (List.mem_cons_self a t)
    have ht := ih (fun x hx => h x (List.mem_cons_of_mem a hx))
    push_cast
    linarith

lemma posSizing_conf_bounds (deals : List Deal) (p : TradePattern)
    (hp : detect_position_sizing_pattern deals = some p) :
    0 ≤ p.confidence ∧ p.confidence ≤ 1 := by
  unfold detect_position_sizing_pattern at hp
  repeat' split at hp
  any_goals exact Option.noConfusion hp
  all_goals (injection hp with h; subst h; exact ⟨by norm_num, by norm_num⟩)

lemma timeBase_conf_bounds (deals : List Deal) :
    3/5 ≤ (timeBasePattern deals).2 ∧ (timeBasePattern deals).2 ≤ 17/20 := by
  unfold timeBasePattern
  repeat' split
  all_goals exact ⟨by norm_num, by norm_num⟩

lemma timeConf_bounds (deals : List Deal) :
    0 ≤ timeConfOf deals ∧ timeConfOf deals ≤ 1 := by
  have hb := timeBase_conf_bounds deals
  unfold timeConfOf
  split
  · constructor
    · exact le_trans (by norm_num) (le_max_right _ _)
    · exact max_le (le_trans hb.2 (by norm_num)) (by norm_num)
  · exact ⟨le_trans (by norm_num) hb.1, le_trans hb.2 (by norm_num)⟩

lemma timeBased_conf_bounds (deals : List Deal) (p : TradePattern)
    (hp : detect_time_based_patterns deals = some p) :
    0 ≤ p.confidence ∧ p.confidence ≤ 1 := by
  unfold detect_time_based_patterns at hp
  split at hp
  · exact Option.noConfusion hp
  · injection hp with h
    subst h
    exact timeConf_bounds deals

lemma riskBase_conf_bounds (orders : List Order) :
    3/5 ≤ (riskPatternFromOrders orders).2 ∧ (riskPatternFromOrders orders).2 ≤ 9/10 := by
  unfold riskPatternFromOrders
  repeat' split
  all_goals exact ⟨by norm_num, by norm_num⟩

lemma risk_conf_bounds (deals : List Deal) (orders : List Order) (p : TradePattern)
    (hp : detect_risk_management_pattern deals orders = some p) :
    0 ≤ p.confidence ∧ p.confidence ≤ 1 := by
  unfold detect_risk_management_pattern at hp
  split at hp
  · exact Option.noConfusion hp
  split at hp
  · injection hp with h; subst h; exact ⟨by norm_num, by norm_num⟩
  · injection hp with h
    subst h
    have hb := riskBase_conf_bounds orders
    exact ⟨by linarith [hb.1], by linarith [hb.2]⟩

lemma freqBase_conf_bounds (deals : List Deal) :
    7/10 ≤ (freqBasePattern deals).2 ∧ (freqBasePattern deals).2 ≤ 17/20 := by
  unfold freqBasePattern
  repeat' split
  all_goals exact ⟨by norm_num, by norm_num⟩

lemma freqConf_bounds (deals : List Deal) :
    0 ≤ freqConfOf deals ∧ freqConfOf deals ≤ 1 := by
  have hb := freqBase_conf_bounds deals
  unfold freqConfOf
  split
  · exact ⟨by linarith [hb.1], by linarith [hb.2]⟩
  · exact ⟨by linarith [hb.1], by linarith [hb.2]⟩

lemma freq_conf_bounds (deals : List Deal) (p : TradePattern)
    (hp : detect_trading_frequency_pattern deals = some p) :
    0 ≤ p.confidence ∧ p.confidence ≤ 1 := by
  unfold detect_trading_frequency_pattern at hp
  split at hp
  · exact Option.noConfusion hp
  · injection hp with h
    subst h
    exact freqConf_bounds deals

lemma symbol_conf_bounds (deals : List Deal) (p : TradePattern)
    (hp : detect_symbol_pattern deals = some p) :
    0 ≤ p.confidence ∧ p.confidence ≤ 1 := by
  unfold detect_symbol_pattern at hp
  repeat' split at hp
  any_goals exact Option.noConfusion hp
  all_goals (injection hp with h; subst h; exact ⟨by norm_num, by norm_num⟩)

lemma fired_conf_bounds (deals : List Deal) (orders : List Order) (p : TradePattern)
    (hp : p ∈ firedPatterns deals orders) :
    0 ≤ p.confidence ∧ p.confidence ≤ 1 := by
  unfold firedPatterns at hp
  rw [List.mem_filterMap] at hp
  obtain ⟨o, ho, hop⟩ := hp
  simp only [id_eq] at hop
  subst hop
  simp only [List.mem_cons, List.not_mem_nil, or_false] at ho
  rcases ho with h | h | h | h | h
  · exact posSizing_conf_bounds deals p h.symm
  · exact timeBased_conf_bounds deals p h.symm
  · exact risk_conf_bounds deals orders p h.symm
  · exact freq_conf_bounds deals p h.symm
  · exact symbol_conf_bounds deals p h.symm

lemma overallConfidence_bounds (deals : List Deal) (orders : List Order) :
    0 ≤ overallConfidence deals orders ∧ overallConfidence deals orders ≤ 1 := by
  unfold overallConfidence
  split
  case isTrue hne =>
    have hlen : 0 < ((firedPatterns deals orders).length : ℚ) := by
      have := List.length_pos.mpr hne
      exact_mod_cast this
    constructor
    · apply div_nonneg _ hlen.le
      apply qsum_nonneg
      intro x hx
      obtain ⟨p, hp, rfl⟩ := List.mem_map.mp hx
      exact (fired_conf_bounds deals orders p hp).1
    · rw [div_le_one hlen]
      have h := qsum_le_length ((firedPatterns deals orders).map TradePattern.confidence) ?_
      · rwa [List.length_map] at h
      · intro x hx
        obtain ⟨p, hp, rfl⟩ := List.mem_map.mp hx
        exact (fired_conf_bounds deals orders p hp).2
  case isFalse => norm_num

lemma gridFold_conf_bounds (orders : List Order) (syms : List String) (r : GridResult)
    (h : 0 ≤ r.confidence ∧ r.confidence ≤ 1) :
    0 ≤ ((syms.foldl (gridStep orders) r).confidence) ∧
    ((syms.foldl (gridStep orders) r).confidence) ≤ 1 := by
  induction syms generalizing r with
  | nil => simpa using h
  | cons s rest ih =>
    simp only [List.foldl_cons]
    apply ih
    unfold gridStep
    split
    · exact ⟨by norm_num, by norm_num⟩
    · exact h

lemma grid_conf_bounds (deals : List Deal) (orders : List Order) :
    0 ≤ (detect_grid_trading deals orders).confidence ∧
    (detect_grid_trading deals orders).confidence ≤ 1 := by
  unfold detect_grid_trading
  split
  · exact ⟨le_refl 0, by norm_num⟩
  · exact gridFold_conf_bounds orders _ ⟨false, 0, none⟩ ⟨le_refl 0, by norm_num⟩

lemma news_conf_bounds (deals : List Deal) :
    0 ≤ (detect_news_trading deals).confidence ∧
    (detect_news_trading deals).confidence ≤ 1 := by
  unfold detect_news_trading
  split
  · exact ⟨le_refl 0, by norm_num⟩
  · constructor
    · refine le_min (mul_nonneg (div_nonneg ?_ ?_) (by norm_num)) (by norm_num)
      · exact Nat.cast_nonneg _
      · exact Nat.cast_nonneg _
    · exact le_trans (min_le_right _ _) (by norm_num)

lemma corrShare_nonneg (deals : List Deal) : 0 ≤ corrShare deals := by
  unfold corrShare
  split
  · exact div_nonneg (Nat.cast_nonneg _) (Nat.cast_nonneg _)
  · exact le_refl 0

lemma corr_conf_bounds (deals : List Deal) :
    0 ≤ (detect_correlation_trading deals).confidence ∧
    (detect_correlation_trading deals).confidence ≤ 1 := by
  unfold detect_correlation_trading
  split
  · exact ⟨le_refl 0, by norm_num⟩
  · constructor
    · exact le_min (mul_nonneg (corrShare_nonneg deals) (by norm_num)) (by norm_num)
    · exact le_trans (min_le_right _ _) (by norm_num)

lemma hedgingShare_nonneg (deals : List Deal) : 0 ≤ hedgingShareOf deals := by
  unfold hedgingShareOf
  split
  · exact div_nonneg (Nat.cast_nonneg _) (Nat.cast_nonneg _)
  · exact le_refl 0

lemma hedge_conf_bounds (deals : List Deal) :
    0 ≤ (detect_hedging_strategy deals).confidence ∧
    (detect_hedging_strategy deals).confidence ≤ 1 := by
  unfold detect_hedging_strategy
  split
  · exact ⟨le_refl 0, by norm_num⟩
  · constructor
    · exact le_min (mul_nonneg (hedgingShare_nonneg deals) (by norm_num)) (by norm_num)
    · exact le_trans (min_le_right _ _) (by norm_num)

lemma scaling_conf_bounds (deals : List Deal) :
    0 ≤ (detect_scaling_in_out deals).confidence ∧
    (detect_scaling_in_out deals).confidence ≤ 1 := by
  unfold detect_scaling_in_out
  split
  · exact ⟨le_refl 0, by norm_num⟩
  · constructor
    · exact le_min (mul_nonneg (Nat.cast_nonneg _) (by norm_num)) (by norm_num)
    · exact le_trans (min_le_right _ _) (by norm_num)

lemma gridStep_qual (orders : List Order) (r : GridResult) (sym : String)
    (hq : gridQualifies orders sym = true) :
    gridStep orders r sym = ⟨true, 4/5, some (gridSpacingOf orders sym)⟩ := by
  unfold gridStep
  rw [if_pos hq]

lemma gridFold_preserve (orders : List Order) (syms : List String) :
    ∀ r : GridResult, r.is_grid = true → r.confidence = 4/5 →
    ((syms.foldl (gridStep orders) r).is_grid = true ∧
     (syms.foldl (gridStep orders) r).confidence = 4/5) := by
  induction syms with
  | nil => intro r h1 h2; exact ⟨h1, h2⟩
  | cons s rest ih =>
    intro r h1 h2
    simp only [List.foldl_cons]
    unfold gridStep
    split
    · exact ih _ rfl rfl
    · exact ih r h1 h2

lemma gridFold_hit (orders : List Order) (syms : List String) (sym : String)
    (hq : gridQualifies orders sym = true) :
    ∀ r : GridResult, sym ∈ syms →
    ((syms.foldl (gridStep orders) r).is_grid = true ∧
     (syms.foldl (gridStep orders) r).confidence = 4/5) := by
  induction syms with
  | nil => intro r h; cases h
  | cons s rest ih =>
    intro r hmem
    simp only [List.foldl_cons]
    by_cases hs : s = sym
    · subst hs
      rw [gridStep_qual orders r s hq]
      exact gridFold_preserve orders rest _ rfl rfl
    · rcases List.mem_cons.mp hmem with h | h
      · exact absurd h.symm hs
      · exact ih _ h

lemma scalingGo_adj (ts : List ℕ) :
    ∀ (t c acc : ℕ), 1 ≤ c →
    scalingGo ts (some t) c acc = acc + adjSameCount (t :: ts) := by
  induction ts with
  | nil =>
    intro t c acc _
    simp [scalingGo, adjSameCount]
  | cons u us ih =>
    intro t c acc hc
    by_cases h : u = t
    · subst h
      show scalingGo (u :: us) (some u) c acc = acc + adjSameCount (u :: u :: us)
      unfold scalingGo
      rw [if_pos rfl, if_pos (by omega)]
      rw [ih u (c + 1) (acc + 1) (by omega)]
      have he : adjSameCount (u :: u :: us) = 1 + adjSameCount (u :: us) := by
        simp [adjSameCount]
      omega
    · show scalingGo (u :: us) (some t) c acc = acc + adjSameCount (t :: u :: us)
      unfold scalingGo
      rw [if_neg (by simpa using h)]
      rw [ih u 1 acc (by omega)]
      simp only [adjSameCount]
      rw [if_neg (fun he => h he.symm)]
      omega

lemma scalingLoop_adj (types : List ℕ) : scalingLoop types = adjSameCount types := by
  cases types with
  | nil => rfl
  | cons t ts =>
    unfold scalingLoop scalingGo
    rw [if_neg (by simp)]
    rw [scalingGo_adj ts t 1 0 (le_refl 1)]
    omega

lemma foldl_step_ext {α β : Type} (f g : α → β → α) (l : List β)
    (h : ∀ a b, b ∈ l → f a b = g a b) :
    ∀ a : α, l.foldl f a = l.foldl g a := by
  induction l with
  | nil => intro a; rfl
  | cons x xs ih =>
    intro a
    simp only [List.foldl_cons]
    rw [h a x (List.mem_cons_self x xs)]
    exact ih (fun a b hb => h a b (List.mem_cons_of_mem x hb)) _

/-! ## Concrete inputs used by the claims below -/

def c1Deals : List Deal :=
  [⟨0, "EURUSD", 0, 1, 1, 1⟩, ⟨3600, "EURUSD", 0, 1, 11/10, 1⟩,
   ⟨7200, "EURUSD", 0, 1, 1, 1⟩, ⟨10800, "EURUSD", 0, 1, 11/10, 1⟩]

def c1SmallDeals : List Deal :=
  [⟨0, "EURUSD", 0, 1, 1, 1⟩, ⟨3600, "EURUSD", 0, 1, 11/10, 1⟩]

def c2Patterns : List TradePattern :=
  [⟨"High-Frequency Trading (HFT)", 17/20, "Trading frequency analysis"⟩,
   ⟨"Day Trading Strategy", 3/4, "Trading frequency analysis"⟩]

def c4Deals : List Deal := [⟨0, "EURUSD", 0, 1, 1/10, 1⟩]

def c6WinLoss : List Deal := [⟨0, "EURUSD", 0, 1, 1, 10⟩, ⟨60, "EURUSD", 1, 1, 1, -5⟩]

def c6WinOnly : List Deal := [⟨0, "EURUSD", 0, 1, 1, 10⟩]

def c6BreakEven : List Deal := [⟨0, "EURUSD", 0, 1, 1, 0⟩]

def c7Deals : List Deal := [⟨0, "EURUSD", 0, 11/10, 1/10, 5⟩]

def c7ThreeOrders : List Order :=
  [⟨"EURUSD", 2, 11/10, 0, 0⟩, ⟨"EURUSD", 2, 1101/1000, 0, 0⟩,
   ⟨"EURUSD", 2, 551/500, 0, 0⟩]

def c7FiveOrders : List Order :=
  [⟨"EURUSD", 2, 11/10, 0, 0⟩, ⟨"EURUSD", 2, 1101/1000, 0, 0⟩,
   ⟨"EURUSD", 2, 551/500, 0, 0⟩, ⟨"EURUSD", 2, 1103/1000, 0, 0⟩,
   ⟨"EURUSD", 2, 138/125, 0, 0⟩]

def c8Deals : List Deal :=
  [⟨0, "EURUSD", 0, 1, 1/10, 1⟩, ⟨60, "EURUSD", 0, 1, 1/10, 1⟩,
   ⟨120, "EURUSD", 0, 1, 1/10, 1⟩]

def c10Deals : List Deal := [⟨0, "EURUSD", 0, 1, 1/10, 5⟩]

/-! ## Claims -/

/-- Claim C1, counterexample.  A table of 4 trades with volumes
1, 1.1, 1, 1.1 (all profits positive) satisfies every premise of the claim:
at least 4 trades, volumes not all identical, zero martingale steps (fewer
than 30% of transitions), and coefficient of variation below 0.2 — yet the
position-sizing detector returns the pattern "Unknown" with confidence 0,
not "Consistent Proportional Sizing" with confidence 0.7. -/
theorem C1_counterexample :
    3 < c1Deals.length ∧
    (uniqueFirst (c1Deals.map Deal.volume)).length ≠ 1 ∧
    martingaleSteps (c1Deals.map Deal.volume) (c1Deals.map Deal.profit) = 0 ∧
    cvBelowFifth (c1Deals.map Deal.volume) = true ∧
    detect_position_sizing_pattern c1Deals =
      some ⟨"Unknown", 0, "Position sizing strategy analysis"⟩ ∧
    detect_position_sizing_pattern c1Deals ≠
      some ⟨"Consistent Proportional Sizing", 7/10, "Position sizing strategy analysis"⟩ := by
  decide

/-- Claim C1, amended.  For a table of at least 4 trades whose volumes are not
all identical, when the martingale-step count does not exceed 30% of the trade
count the detector returns "Unknown" with confidence 0; the coefficient-of-
variation branch ("Consistent Proportional Sizing" 0.7 / "Dynamic/Variable
Sizing" 0.6) applies exactly to tables of 1–3 trades with non-identical
volumes. -/
theorem C1_amended :
    (∀ deals : List Deal, 3 < deals.length →
      (uniqueFirst (deals.map Deal.volume)).length ≠ 1 →
      ¬(((deals.map Deal.volume).length : ℚ) * (3/10) <
        (martingaleSteps (deals.map Deal.volume) (deals.map Deal.profit) : ℚ)) →
      detect_position_sizing_pattern deals =
        some ⟨"Unknown", 0, "Position sizing strategy analysis"⟩) ∧
    (∀ deals : List Deal, deals ≠ [] → deals.length ≤ 3 →
      (uniqueFirst (deals.map Deal.volume)).length ≠ 1 →
      detect_position_sizing_pattern deals =
        (if cvBelowFifth (deals.map Deal.volume) then
          some ⟨"Consistent Proportional Sizing", 7/10, "Position sizing strategy analysis"⟩
         else
          some ⟨"Dynamic/Variable Sizing", 3/5, "Position sizing strategy analysis"⟩)) := by
  constructor
  · intro deals h4 hne hm
    have hnil : deals ≠ [] := by
      intro h
      rw [h] at h4
      simp at h4
    unfold detect_position_sizing_pattern
    rw [if_neg hnil, if_neg hne, if_pos (by simpa using h4), if_neg hm]
  · intro deals hnil h3 hne
    unfold detect_position_sizing_pattern
    rw [if_neg hnil, if_neg hne, if_neg (by simp only [List.length_map]; omega)]

/-- Claim C1, witness for the amended theorem at concrete inputs. -/
theorem C1_witness :
    detect_position_sizing_pattern c1Deals =
      some ⟨"Unknown", 0, "Position sizing strategy analysis"⟩ ∧
    detect_position_sizing_pattern c1SmallDeals =
      (if cvBelowFifth (c1SmallDeals.map Deal.volume) then
        some ⟨"Consistent Proportional Sizing", 7/10, "Position sizing strategy analysis"⟩
       else
        some ⟨"Dynamic/Variable Sizing", 3/5, "Position sizing strategy analysis"⟩) :=
  ⟨C1_amended.1 c1Deals (by decide) (by decide) (by decide),
   C1_amended.2 c1SmallDeals (by decide) (by decide) (by decide)⟩

/-- Claim C2: the resolver is a first-match-wins cascade over pattern names;
whenever the HFT name is among the detected names — in particular together
with the day-trading name — the resolved algorithm is
"High-Frequency Trading Bot". -/
theorem C2_resolver_hft_precedence (patterns : List TradePattern)
    (stats : Option TradeStats)
    (h1 : "High-Frequency Trading (HFT)" ∈ patternNamesOf patterns)
    (_h2 : "Day Trading Strategy" ∈ patternNamesOf patterns) :
    determine_algorithm_type patterns stats = "High-Frequency Trading Bot" := by
  unfold determine_algorithm_type
  rw [if_pos h1]

/-- Claim C2, witness: the two names together resolve to the HFT bot. -/
theorem C2_witness :
    ("High-Frequency Trading (HFT)" ∈ patternNamesOf c2Patterns) ∧
    ("Day Trading Strategy" ∈ patternNamesOf c2Patterns) ∧
    determine_algorithm_type c2Patterns none = "High-Frequency Trading Bot" :=
  ⟨by decide, by decide,
   C2_resolver_hft_precedence c2Patterns none (by decide) (by decide)⟩

/-- Claim C3: the signature confidence is the arithmetic mean of the
confidences of the patterns that fired, and 0 when no pattern fired. -/
theorem C3_confidence_is_mean (deals : List Deal) (orders : List Order)
    (now : String) :
    (identify_algorithm_type deals orders now).confidence =
      (if (identify_algorithm_type deals orders now).patterns = [] then 0
       else (((identify_algorithm_type deals orders now).patterns.map
                TradePattern.confidence).sum /
             (((identify_algorithm_type deals orders now).patterns.length : ℚ)))) := by
  show overallConfidence deals orders = _
  unfold overallConfidence
  by_cases h : firedPatterns deals orders = []
  · rw [if_neg (not_not.mpr h),
        if_pos (show (identify_algorithm_type deals orders now).patterns = [] from h)]
  · rw [if_pos h,
        if_neg (show ¬(identify_algorithm_type deals orders now).patterns = [] from h)]
    rfl

/-- Claim C4: every confidence a detector can produce, and the aggregate
signature confidence, lies in [0, 1] — including the trading-frequency
detector with its +0.05 consistency bonus and the advanced-analytics
detectors with their `min(..., cap)` formulas. -/
theorem C4_confidences_in_unit_interval (deals : List Deal) (orders : List Order)
    (now : String) :
    (∀ p, detect_position_sizing_pattern deals = some p →
       0 ≤ p.confidence ∧ p.confidence ≤ 1) ∧
    (∀ p, detect_time_based_patterns deals = some p →
       0 ≤ p.confidence ∧ p.confidence ≤ 1) ∧
    (∀ p, detect_risk_management_pattern deals orders = some p →
       0 ≤ p.confidence ∧ p.confidence ≤ 1) ∧
    (∀ p, detect_trading_frequency_pattern deals = some p →
       0 ≤ p.confidence ∧ p.confidence ≤ 1) ∧
    (∀ p, detect_symbol_pattern deals = some p →
       0 ≤ p.confidence ∧ p.confidence ≤ 1) ∧
    (0 ≤ (identify_algorithm_type deals orders now).confidence ∧
       (identify_algorithm_type deals orders now).confidence ≤ 1) ∧
    (0 ≤ (detect_grid_trading deals orders).confidence ∧
       (detect_grid_trading deals orders).confidence ≤ 1) ∧
    (0 ≤ (detect_news_trading deals).confidence ∧
       (detect_news_trading deals).confidence ≤ 1) ∧
    (0 ≤ (detect_correlation_trading deals).confidence ∧
       (detect_correlation_trading deals).confidence ≤ 1) ∧
    (0 ≤ (detect_hedging_strategy deals).confidence ∧
       (detect_hedging_strategy deals).confidence ≤ 1) ∧
    (0 ≤ (detect_scaling_in_out deals).confidence ∧
       (detect_scaling_in_out deals).confidence ≤ 1) :=
  ⟨fun p hp => posSizing_conf_bounds deals p hp,
   fun p hp => timeBased_conf_bounds deals p hp,
   fun p hp => risk_conf_bounds deals orders p hp,
   fun p hp => freq_conf_bounds deals p hp,
   fun p hp => symbol_conf_bounds deals p hp,
   overallConfidence_bounds deals orders,
   grid_conf_bounds deals orders,
   news_conf_bounds deals,
   corr_conf_bounds deals,
   hedge_conf_bounds deals,
   scaling_conf_bounds deals⟩

/-- Claim C4, witness at a one-deal table ("Fixed Lot Size", 0.95). -/
theorem C4_witness :
    0 ≤ (TradePattern.mk "Fixed Lot Size" (19/20)
           "Position sizing strategy analysis").confidence ∧
    (TradePattern.mk "Fixed Lot Size" (19/20)
       "Position sizing strategy analysis").confidence ≤ 1 :=
  (C4_confidences_in_unit_interval c4Deals [] "t").1
    (TradePattern.mk "Fixed Lot Size" (19/20) "Position sizing strategy analysis")
    (by decide)

/-- Claim C5: on an empty deals table every detector returns absence —
the five core detectors return `none`, the five advanced-analytics detectors
a not-detected result with confidence 0. -/
theorem C5_empty_table_absence (orders : List Order) :
    detect_position_sizing_pattern [] = none ∧
    detect_time_based_patterns [] = none ∧
    detect_risk_management_pattern [] orders = none ∧
    detect_trading_frequency_pattern [] = none ∧
    detect_symbol_pattern [] = none ∧
    detect_grid_trading [] orders = ⟨false, 0, none⟩ ∧
    detect_news_trading [] = ⟨false, 0, 0, 0⟩ ∧
    detect_correlation_trading [] = ⟨false, 0, 0, 0⟩ ∧
    detect_hedging_strategy [] = ⟨false, 0, 0, 0⟩ ∧
    detect_scaling_in_out [] = ⟨false, 0, 0⟩ :=
  ⟨rfl, rfl, rfl, rfl, rfl, rfl, rfl, rfl, rfl, rfl⟩

/-- Claim C6: the profit factor is gross profit / gross loss when the gross
loss is positive, the +∞ sentinel when the gross loss is 0 and the gross
profit positive, and 0 when both are 0; and it is exactly the value stored in
the statistics record. -/
theorem C6_profit_factor (deals : List Deal) :
    (0 < grossLoss deals →
       profitFactorOf deals = PFValue.finite (grossProfit deals / grossLoss deals)) ∧
    (grossLoss deals = 0 → 0 < grossProfit deals →
       profitFactorOf deals = PFValue.posInf) ∧
    (grossLoss deals = 0 → grossProfit deals = 0 →
       profitFactorOf deals = PFValue.finite 0) ∧
    (∀ s, calculate_trade_statistics deals = some s →
       s.profit_factor = profitFactorOf deals) := by
  refine ⟨?_, ?_, ?_, ?_⟩
  · intro h
    unfold profitFactorOf
    rw [if_pos h]
  · intro h0 hg
    unfold profitFactorOf
    rw [if_neg (by rw [h0]; exact lt_irrefl 0), if_pos hg]
  · intro h0 hg
    unfold profitFactorOf
    rw [if_neg (by rw [h0]; exact lt_irrefl 0), if_neg (by rw [hg]; exact lt_irrefl 0)]
  · intro s hs
    unfold calculate_trade_statistics at hs
    split at hs
    · exact Option.noConfusion hs
    split at hs
    · exact Option.noConfusion hs
    · injection hs with h
      subst h
      rfl

/-- Claim C6, witness: the three profit-factor cases at concrete tables. -/
theorem C6_witness :
    profitFactorOf c6WinLoss = PFValue.finite (grossProfit c6WinLoss / grossLoss c6WinLoss) ∧
    profitFactorOf c6WinOnly = PFValue.posInf ∧
    profitFactorOf c6BreakEven = PFValue.finite 0 :=
  ⟨(C6_profit_factor c6WinLoss).1 (by decide),
   (C6_profit_factor c6WinOnly).2.1 (by decide) (by decide),
   (C6_profit_factor c6BreakEven).2.2.1 (by decide) (by decide)⟩

/-- Claim C7, counterexample.  Three pending limit orders at perfectly regular
prices 1.1000, 1.1010, 1.1020 on a traded symbol satisfy the claim's general
rule (≥3 pending limits, stdev of consecutive differences < 0.3 × mean), yet
the grid detector reports no grid: the code additionally requires at least 5
orders on the symbol before it looks at the pending limits. -/
theorem C7_counterexample :
    3 ≤ (c7ThreeOrders.filter (fun o => o.type == 2 || o.type == 3)).length ∧
    varPop (consecDiffs (sortQ (c7ThreeOrders.map Order.price_open))) <
      (9/100) * (mean (consecDiffs (sortQ (c7ThreeOrders.map Order.price_open)))) ^ 2 ∧
    c7Deals.map Deal.symbol = ["EURUSD"] ∧
    (∀ o ∈ c7ThreeOrders, o.symbol = "EURUSD") ∧
    detect_grid_trading c7Deals c7ThreeOrders = ⟨false, 0, none⟩ := by
  decide

/-- Claim C7, amended.  The concrete 5-order example holds as stated (on a
non-empty deals table containing the symbol): is_grid = true, spacing 0.0010,
confidence 0.8.  In general, grid detection triggers for a symbol of the deals
table that has at least 5 orders, among them at least 3 pending limits whose
sorted consecutive price differences have stdev < 0.3 × mean. -/
theorem C7_amended :
    detect_grid_trading c7Deals c7FiveOrders = ⟨true, 4/5, some (1/1000)⟩ ∧
    (∀ (deals : List Deal) (orders : List Order) (sym : String),
      deals ≠ [] → orders ≠ [] →
      sym ∈ uniqueFirst (deals.map Deal.symbol) →
      gridQualifies orders sym = true →
      (detect_grid_trading deals orders).is_grid = true ∧
      (detect_grid_trading deals orders).confidence = 4/5) := by
  constructor
  · decide
  · intro deals orders sym hd ho hmem hq
    unfold detect_grid_trading
    rw [if_neg (by simp [hd, ho])]
    exact gridFold_hit orders _ sym hq _ hmem

/-- Claim C7, witness for the amended theorem at the 5-order example. -/
theorem C7_witness :
    (detect_grid_trading c7Deals c7FiveOrders).is_grid = true ∧
    (detect_grid_trading c7Deals c7FiveOrders).confidence = 4/5 :=
  C7_amended.2 c7Deals c7FiveOrders "EURUSD" (by decide) (by decide)
    (by decide) (by decide)

/-- Claim C8, counterexample.  Three consecutive same-direction deals on one
symbol form exactly one maximal run of length ≥ 2, so the claim predicts a
counter of 1 and confidence min(1 × 0.2, 0.85) = 0.2; the code counts one
instance per adjacent same-type pair and returns a counter of 2 with
confidence 0.4. -/
theorem C8_counterexample :
    specScalingRuns (c8Deals.map Deal.type) = 1 ∧
    detect_scaling_in_out c8Deals = ⟨true, 2/5, 2⟩ ∧
    ((2 : ℚ)/5) ≠ min ((1 : ℚ) * (1/5)) (17/20) := by
  decide

/-- Claim C8, amended.  Per symbol with at least 3 deals (time-sorted), the
scaling counter increases by 1 for every adjacent pair of same-direction
deals — a run of length L contributes L − 1, not 1 — and the result is
flagged iff the counter is positive, with confidence
min(counter × 0.2, 0.85). -/
theorem C8_amended (deals : List Deal) :
    scalingInstancesOf deals = adjSamePairsTotal deals ∧
    detect_scaling_in_out deals =
      (if deals = [] then ⟨false, 0, 0⟩
       else ⟨decide (0 < adjSamePairsTotal deals),
             min ((adjSamePairsTotal deals : ℚ) * (1/5)) (17/20),
             adjSamePairsTotal deals⟩) := by
  have key : scalingInstancesOf deals = adjSamePairsTotal deals := by
    unfold scalingInstancesOf adjSamePairsTotal
    apply foldl_step_ext
    intro a b _
    rw [scalingLoop_adj]
  refine ⟨key, ?_⟩
  unfold detect_scaling_in_out
  rw [key]

/-- Claim C9: the analysis pipeline is deterministic — two runs on the same
tables agree on every field of the signature except the timestamp, which is
exactly the wall-clock string passed in. -/
theorem C9_deterministic (deals : List Deal) (orders : List Order)
    (t1 t2 : String) :
    (identify_algorithm_type deals orders t1).likely_algorithm =
      (identify_algorithm_type deals orders t2).likely_algorithm ∧
    (identify_algorithm_type deals orders t1).confidence =
      (identify_algorithm_type deals orders t2).confidence ∧
    (identify_algorithm_type deals orders t1).patterns =
      (identify_algorithm_type deals orders t2).patterns ∧
    (identify_algorithm_type deals orders t1).characteristics =
      (identify_algorithm_type deals orders t2).characteristics ∧
    (identify_algorithm_type deals orders t1).timestamp = t1 :=
  ⟨rfl, rfl, rfl, rfl, rfl⟩

/-- Claim C10: with a non-empty deals table and an empty orders table the
risk-management detector does not return absence but the pattern
"Unknown Risk Management" with confidence 0.5; a signature carrying only that
pattern falls through every resolver rule to the default label. -/
theorem C10_unknown_risk_management (deals : List Deal) (orders : List Order)
    (hd : deals ≠ []) (ho : orders = []) :
    detect_risk_management_pattern deals orders =
      some ⟨"Unknown Risk Management", 1/2, "Risk management strategy analysis"⟩ ∧
    determine_algorithm_type
        [⟨"Unknown Risk Management", 1/2, "Risk management strategy analysis"⟩] none =
      "Custom/Hybrid Trading Algorithm" := by
  constructor
  · unfold detect_risk_management_pattern
    rw [if_neg hd, if_pos ho]
  · decide

/-- Claim C10, witness at a one-deal table with no orders. -/
theorem C10_witness :
    detect_risk_management_pattern c10Deals [] =
      some ⟨"Unknown Risk Management", 1/2, "Risk management strategy analysis"⟩ ∧
    determine_algorithm_type
        [⟨"Unknown Risk Management", 1/2, "Risk management strategy analysis"⟩] none =
      "Custom/Hybrid Trading Algorithm" :=
  C10_unknown_risk_management c10Deals [] (by decide) rfl

end MT5
